import Mathlib

set_option maxHeartbeats 1000000

/-!
Shallow embedding of the `GenericArrow` class (environment visualizer
arrows), in two structurally similar variants: the step-planning fold in
`draw()` (a reduce over step functions seeded with the `from` coordinates,
followed by `splice(0, 2)`), the custom `sceneFunc` canvas path with
rounded corners and an inlined chevron arrowhead (single-primitive
variant), the same path without the chevron (composite variant), the hover
handlers, and the shared `Layout.key` counter threaded through `draw()`.
-/

/-- A JavaScript number as the renderer sees it: a real value, or NaN.
Out-of-range array reads yield `undefined`, which arithmetic operations and
canvas path commands coerce to NaN, so `undefined` is identified with NaN. -/
inductive JsVal where
  | num : ℝ → JsVal
  | nan : JsVal

/-- Math.sign on a real argument: -1 for negatives, 1 for positives, 0 at zero. -/
noncomputable def jsSignR (x : ℝ) : ℝ :=
  if x < 0 then -1 else if 0 < x then 1 else 0

namespace JsVal

/-- subtraction, NaN-propagating. -/
noncomputable def sub : JsVal → JsVal → JsVal
  | num a, num b => num (a - b)
  | _, _ => nan

/-- addition, NaN-propagating. -/
noncomputable def add : JsVal → JsVal → JsVal
  | num a, num b => num (a + b)
  | _, _ => nan

/-- multiplication, NaN-propagating. -/
noncomputable def mul : JsVal → JsVal → JsVal
  | num a, num b => num (a * b)
  | _, _ => nan

/-- Math.abs. -/
noncomputable def abs : JsVal → JsVal
  | num a => num |a|
  | nan => nan

/-- the expression `v / 2` appearing in the corner loop. -/
noncomputable def half : JsVal → JsVal
  | num a => num (a / 2)
  | nan => nan

/-- Math.sign. -/
noncomputable def sign : JsVal → JsVal
  | num a => num (jsSignR a)
  | nan => nan

/-- Math.cos. -/
noncomputable def cos : JsVal → JsVal
  | num a => num (Real.cos a)
  | nan => nan

/-- Math.sin. -/
noncomputable def sin : JsVal → JsVal
  | num a => num (Real.sin a)
  | nan => nan

end JsVal

/-- Math.min, NaN-propagating. -/
noncomputable def jsMin : JsVal → JsVal → JsVal
  | JsVal.num a, JsVal.num b => JsVal.num (min a b)
  | _, _ => JsVal.nan

/-- Math.max, NaN-propagating. -/
noncomputable def jsMax : JsVal → JsVal → JsVal
  | JsVal.num a, JsVal.num b => JsVal.num (max a b)
  | _, _ => JsVal.nan

/-- Math.atan2 restricted to non-NaN inputs: the angle of the vector (x, y),
in (-π, π]. -/
noncomputable def atan2R (y x : ℝ) : ℝ :=
  if 0 < x then Real.arctan (y / x)
  else if x < 0 then
    (if 0 ≤ y then Real.arctan (y / x) + Real.pi else Real.arctan (y / x) - Real.pi)
  else if 0 < y then Real.pi / 2
  else if y < 0 then -(Real.pi / 2)
  else 0

/-- Math.atan2, NaN-propagating. -/
noncomputable def jsAtan2 : JsVal → JsVal → JsVal
  | JsVal.num y, JsVal.num x => JsVal.num (atan2R y x)
  | _, _ => JsVal.nan

/-- `points[i]` on a JavaScript array: the element when `i` is in range,
`undefined` (identified with NaN downstream) otherwise. -/
def getJs (ps : List ℝ) (i : ℤ) : JsVal :=
  if 0 ≤ i ∧ i < (ps.length : ℤ) then JsVal.num (ps.getD i.toNat 0) else JsVal.nan

/-- the real value stored at index `i` (meaningful when `i` is in range). -/
def ptR (ps : List ℝ) (i : ℤ) : ℝ := ps.getD i.toNat 0

/-- Canvas drawing commands issued by `sceneFunc` on the Konva context. -/
inductive Cmd where
  | beginPath : Cmd
  | moveTo : JsVal → JsVal → Cmd
  | lineTo : JsVal → JsVal → Cmd
  | quadraticCurveTo : JsVal → JsVal → JsVal → JsVal → Cmd
  | strokeShape : Cmd

/-- `dx1` of the corner loop at joint offset `n`: `points[n + 2] - points[n + 0]`. -/
noncomputable def dx1v (ps : List ℝ) (n : ℤ) : JsVal :=
  (getJs ps (n + 2)).sub (getJs ps n)

/-- `dy1` of the corner loop: `points[n + 3] - points[n + 1]`. -/
noncomputable def dy1v (ps : List ℝ) (n : ℤ) : JsVal :=
  (getJs ps (n + 3)).sub (getJs ps (n + 1))

/-- `br1 = Math.min(40, Math.max(Math.abs(dx1 / 2), Math.abs(dy1 / 2)))`. -/
noncomputable def br1v (ps : List ℝ) (n : ℤ) : JsVal :=
  jsMin (JsVal.num 40) (jsMax (dx1v ps n).half.abs (dy1v ps n).half.abs)

/-- `dx2` of the corner loop: `points[n + 2 + 2] - points[n + 0 + 2]`. -/
noncomputable def dx2v (ps : List ℝ) (n : ℤ) : JsVal :=
  (getJs ps (n + 4)).sub (getJs ps (n + 2))

/-- `dy2` of the corner loop: `points[n + 3 + 2] - points[n + 1 + 2]`. -/
noncomputable def dy2v (ps : List ℝ) (n : ℤ) : JsVal :=
  (getJs ps (n + 5)).sub (getJs ps (n + 3))

/-- `br2 = Math.min(40, Math.max(Math.abs(dx2 / 2), Math.abs(dy2 / 2)))`. -/
noncomputable def br2v (ps : List ℝ) (n : ℤ) : JsVal :=
  jsMin (JsVal.num 40) (jsMax (dx2v ps n).half.abs (dy2v ps n).half.abs)

/-- the joint radius `br = Math.min(br1, br2)`. -/
noncomputable def brv (ps : List ℝ) (n : ℤ) : JsVal :=
  jsMin (br1v ps n) (br2v ps n)

/-- the pull-back abscissa `x1 = points[n + 0] + (Math.abs(dx1) - br) * Math.sign(dx1)`. -/
noncomputable def x1v (ps : List ℝ) (n : ℤ) : JsVal :=
  (getJs ps n).add (((dx1v ps n).abs.sub (brv ps n)).mul (dx1v ps n).sign)

/-- the pull-back ordinate `y1 = points[n + 1] + (Math.abs(dy1) - br) * Math.sign(dy1)`. -/
noncomputable def y1v (ps : List ℝ) (n : ℤ) : JsVal :=
  (getJs ps (n + 1)).add (((dy1v ps n).abs.sub (brv ps n)).mul (dy1v ps n).sign)

/-- the push-forward abscissa, read after `n += 2`:
`x2 = points[n + 0] + br * Math.sign(dx2)` at the incremented cursor. -/
noncomputable def x2v (ps : List ℝ) (n : ℤ) : JsVal :=
  (getJs ps (n + 2)).add ((brv ps n).mul (dx2v ps n).sign)

/-- the push-forward ordinate, read after `n += 2`:
`y2 = points[n + 1] + br * Math.sign(dy2)` at the incremented cursor. -/
noncomputable def y2v (ps : List ℝ) (n : ℤ) : JsVal :=
  (getJs ps (n + 3)).add ((brv ps n).mul (dy2v ps n).sign)

/-- The corner-smoothing `while (n < points.length - 4)` loop of `sceneFunc`:
at each joint it emits a pull-back `lineTo` and a quadratic curve whose
control point is the raw joint coordinate, then advances the cursor by 2. -/
noncomputable def cornerLoop (ps : List ℝ) (n : ℤ) : List Cmd :=
  if h : n < (ps.length : ℤ) - 4 then
    Cmd.lineTo (x1v ps n) (y1v ps n) ::
    Cmd.quadraticCurveTo (getJs ps (n + 2)) (getJs ps (n + 3)) (x2v ps n) (y2v ps n) ::
    cornerLoop ps (n + 2)
  else []
termination_by ((ps.length : ℤ) - n).toNat
decreasing_by
  simp_wf
  omega

/-- The `sceneFunc` of the single-primitive variant: begin the path at
`(points[0], points[1])`; a plain `lineTo` when `points.length === 4`,
otherwise the corner loop followed by a `lineTo` to the final coordinates;
then the two chevron strokes of length 10 at ±π/6 around the heading
`Math.atan2` of the last segment, and `strokeShape`. -/
noncomputable def sceneFuncArrow (ps : List ℝ) : List Cmd :=
  let L : ℤ := ps.length
  let body : List Cmd :=
    if ps.length = 4 then [Cmd.lineTo (getJs ps 2) (getJs ps 3)]
    else cornerLoop ps 0 ++ [Cmd.lineTo (getJs ps (L - 2)) (getJs ps (L - 1))]
  let angle : JsVal :=
    jsAtan2 ((getJs ps (L - 1)).sub (getJs ps (L - 3)))
            ((getJs ps (L - 2)).sub (getJs ps (L - 4)))
  Cmd.beginPath :: Cmd.moveTo (getJs ps 0) (getJs ps 1) ::
  body ++
  [Cmd.lineTo ((getJs ps (L - 2)).sub ((JsVal.num 10).mul (angle.sub (JsVal.num (Real.pi / 6))).cos))
              ((getJs ps (L - 1)).sub ((JsVal.num 10).mul (angle.sub (JsVal.num (Real.pi / 6))).sin)),
   Cmd.moveTo (getJs ps (L - 2)) (getJs ps (L - 1)),
   Cmd.lineTo ((getJs ps (L - 2)).sub ((JsVal.num 10).mul (angle.add (JsVal.num (Real.pi / 6))).cos))
              ((getJs ps (L - 1)).sub ((JsVal.num 10).mul (angle.add (JsVal.num (Real.pi / 6))).sin)),
   Cmd.strokeShape]

/-- The `sceneFunc` of the composite variant (custom `KonvaPath` shape):
identical path construction, no inlined chevron (a separate arrow primitive
with zero stroke width accompanies it). -/
noncomputable def sceneFuncPath (ps : List ℝ) : List Cmd :=
  let L : ℤ := ps.length
  Cmd.beginPath :: Cmd.moveTo (getJs ps 0) (getJs ps 1) ::
  (if ps.length = 4 then [Cmd.lineTo (getJs ps 2) (getJs ps 3)]
   else cornerLoop ps 0 ++ [Cmd.lineTo (getJs ps (L - 2)) (getJs ps (L - 1))]) ++
  [Cmd.strokeShape]

/-- The body of the `reduce` in `draw()`: read the last two accumulated
coordinates, invoke the step on them, and append the returned pair. -/
def drawStep (acc : List ℝ) (s : ℝ → ℝ → ℝ × ℝ) : List ℝ :=
  acc ++ [(s (acc.getD (acc.length - 2) 0) (acc.getD (acc.length - 1) 0)).1,
          (s (acc.getD (acc.length - 2) 0) (acc.getD (acc.length - 1) 0)).2]

/-- The points computation of `draw()`: fold the steps over the seed
`[from.x, from.y]`, then `splice(0, 2)` removes the duplicated origin. -/
def drawPoints (ox oy : ℝ) (steps : List (ℝ → ℝ → ℝ × ℝ)) : List ℝ :=
  (steps.foldl drawStep [ox, oy]).drop 2

/-- An endpoint entity: the arrow reads only its `x` and `y` fields. -/
structure Visible where
  x : ℝ
  y : ℝ

/-- `calculateSteps()`: empty when no target is set, otherwise the single
step `(x, y) => [to.x, to.y]` jumping to the target's coordinates. -/
def calculateSteps (target : Option Visible) : List (ℝ → ℝ → ℝ × ℝ) :=
  match target with
  | none => []
  | some tgt => [fun _ _ => (tgt.x, tgt.y)]

/-- The instance fields of `GenericArrow`. -/
structure ArrowState where
  x : ℝ
  y : ℝ
  height : ℝ
  width : ℝ
  points : List ℝ
  fromV : Visible
  target : Option Visible

/-- the `GenericArrow` constructor: stores `from` and copies its coordinates. -/
def mkArrow (fromV : Visible) : ArrowState :=
  ⟨fromV.x, fromV.y, 0, 0, [], fromV, none⟩

/-- `to(to)`: records the target and sets width/height to the absolute
coordinate deltas. -/
def toTarget (a : ArrowState) (tgt : Visible) : ArrowState :=
  ⟨a.x, a.y, |tgt.y - a.fromV.y|, |tgt.x - a.fromV.x|, a.points, a.fromV, some tgt⟩

/-- What one `draw()` call hands to the host: the allocated key, the
`points` prop and the `sceneFunc` command list. -/
structure DrawOutput where
  key : ℕ
  pts : List ℝ
  cmds : List Cmd

/-- One `draw()` call as a state transformer: the produced node, the
instance state after the call, and the `Layout.key` counter after the call. -/
structure DrawResult where
  out : DrawOutput
  state : ArrowState
  layoutKey : ℕ

/-- `draw()` of the single-primitive variant: plans the points
(reduce + splice), reads `Layout.key` and post-increments it for the node
key, and yields the sceneFunc commands; no instance field is assigned. -/
noncomputable def draw (a : ArrowState) (layoutKey : ℕ) : DrawResult :=
  let points := drawPoints a.fromV.x a.fromV.y (calculateSteps a.target)
  ⟨⟨layoutKey, points, sceneFuncArrow points⟩, a, layoutKey + 1⟩

/-- `draw()` of the composite variant: same planning and key allocation,
custom path without the inlined chevron. -/
noncomputable def drawComposite (a : ArrowState) (layoutKey : ℕ) : DrawResult :=
  let points := drawPoints a.fromV.x a.fromV.y (calculateSteps a.target)
  ⟨⟨layoutKey, points, sceneFuncPath points⟩, a, layoutKey + 1⟩

/-- successive `draw()` calls across arrow instances, threading the shared
`Layout.key` counter; returns the allocated keys and the final counter. -/
noncomputable def drawSeq : List ArrowState → ℕ → List ℕ × ℕ
  | [], k => ([], k)
  | a :: restArrows, k =>
    let r := draw a k
    let tail := drawSeq restArrows r.layoutKey
    (r.out.key :: tail.1, tail.2)

/-- A pointer event relevant to the hover decoration. -/
inductive HoverEvent where
  | enter : HoverEvent
  | leave : HoverEvent
deriving DecidableEq

/-- The visual attributes of the rendered shape: the stroke width plus all
remaining visual attributes, kept abstract. -/
structure ShapeAttrs (α : Type) where
  strokeWidth : ℝ
  rest : α

/-- Modelled from the spec: `setHoveredStyle` (EnvVisualizerUtils, not under
src/) applies the supplied style overrides to the shape's visual attributes;
`onMouseEnter` passes only `strokeWidth = Config.ArrowHoveredStrokeWidth`
(EnvVisualizerConfig, also not under src/), so pointer enter sets the stroke
width to the configured hovered value and changes nothing else. -/
def onMouseEnter {α : Type} (hoveredWidth : ℝ) (s : ShapeAttrs α) : ShapeAttrs α :=
  ⟨hoveredWidth, s.rest⟩

/-- Modelled from the spec: `setUnhoveredStyle` (EnvVisualizerUtils, not
under src/) applies the supplied style overrides; `onMouseLeave` passes only
`strokeWidth = Config.ArrowStrokeWidth`, restoring the configured normal
stroke width and changing nothing else. -/
def onMouseLeave {α : Type} (normalWidth : ℝ) (s : ShapeAttrs α) : ShapeAttrs α :=
  ⟨normalWidth, s.rest⟩

/-- a sequence of pointer enter/leave events dispatched to the handlers. -/
def applyHover {α : Type} (hoveredWidth normalWidth : ℝ) (s : ShapeAttrs α)
    (evs : List HoverEvent) : ShapeAttrs α :=
  evs.foldl
    (fun acc e =>
      match e with
      | HoverEvent.enter => onMouseEnter hoveredWidth acc
      | HoverEvent.leave => onMouseLeave normalWidth acc)
    s

@[simp] theorem JsVal.sub_num (a b : ℝ) : (JsVal.num a).sub (JsVal.num b) = JsVal.num (a - b) := rfl

@[simp] theorem JsVal.sub_nan (x : JsVal) : x.sub JsVal.nan = JsVal.nan := by cases x <;> rfl

@[simp] theorem JsVal.nan_sub (x : JsVal) : JsVal.nan.sub x = JsVal.nan := rfl

@[simp] theorem JsVal.add_num (a b : ℝ) : (JsVal.num a).add (JsVal.num b) = JsVal.num (a + b) := rfl

@[simp] theorem JsVal.add_nan (x : JsVal) : x.add JsVal.nan = JsVal.nan := by cases x <;> rfl

@[simp] theorem JsVal.nan_add (x : JsVal) : JsVal.nan.add x = JsVal.nan := rfl

@[simp] theorem JsVal.mul_num (a b : ℝ) : (JsVal.num a).mul (JsVal.num b) = JsVal.num (a * b) := rfl

@[simp] theorem JsVal.mul_nan (x : JsVal) : x.mul JsVal.nan = JsVal.nan := by cases x <;> rfl

@[simp] theorem JsVal.nan_mul (x : JsVal) : JsVal.nan.mul x = JsVal.nan := rfl

@[simp] theorem JsVal.abs_num (a : ℝ) : (JsVal.num a).abs = JsVal.num |a| := rfl

@[simp] theorem JsVal.abs_nan : JsVal.nan.abs = JsVal.nan := rfl

@[simp] theorem JsVal.half_num (a : ℝ) : (JsVal.num a).half = JsVal.num (a / 2) := rfl

@[simp] theorem JsVal.half_nan : JsVal.nan.half = JsVal.nan := rfl

@[simp] theorem JsVal.sign_num (a : ℝ) : (JsVal.num a).sign = JsVal.num (jsSignR a) := rfl

@[simp] theorem JsVal.sign_nan : JsVal.nan.sign = JsVal.nan := rfl

@[simp] theorem JsVal.cos_num (a : ℝ) : (JsVal.num a).cos = JsVal.num (Real.cos a) := rfl

@[simp] theorem JsVal.cos_nan : JsVal.nan.cos = JsVal.nan := rfl

@[simp] theorem JsVal.sin_num (a : ℝ) : (JsVal.num a).sin = JsVal.num (Real.sin a) := rfl

@[simp] theorem JsVal.sin_nan : JsVal.nan.sin = JsVal.nan := rfl

@[simp] theorem jsMin_num (a b : ℝ) : jsMin (JsVal.num a) (JsVal.num b) = JsVal.num (min a b) := rfl

@[simp] theorem jsMin_nan (x : JsVal) : jsMin x JsVal.nan = JsVal.nan := by cases x <;> rfl

@[simp] theorem nan_jsMin (x : JsVal) : jsMin JsVal.nan x = JsVal.nan := rfl

@[simp] theorem jsMax_num (a b : ℝ) : jsMax (JsVal.num a) (JsVal.num b) = JsVal.num (max a b) := rfl

@[simp] theorem jsMax_nan (x : JsVal) : jsMax x JsVal.nan = JsVal.nan := by cases x <;> rfl

@[simp] theorem nan_jsMax (x : JsVal) : jsMax JsVal.nan x = JsVal.nan := rfl

@[simp] theorem jsAtan2_num (a b : ℝ) : jsAtan2 (JsVal.num a) (JsVal.num b) = JsVal.num (atan2R a b) := rfl

@[simp] theorem jsAtan2_nan_right (x : JsVal) : jsAtan2 x JsVal.nan = JsVal.nan := by cases x <;> rfl

@[simp] theorem jsAtan2_nan_left (x : JsVal) : jsAtan2 JsVal.nan x = JsVal.nan := rfl

theorem getJs_in (ps : List ℝ) (i : ℤ) (h0 : 0 ≤ i) (h1 : i < (ps.length : ℤ)) :
    getJs ps i = JsVal.num (ptR ps i) := by
  simp [getJs, ptR, h0, h1]

theorem getJs_low (ps : List ℝ) (i : ℤ) (h : i < 0) : getJs ps i = JsVal.nan := by
  simp only [getJs, ite_eq_right_iff]
  intro hc
  exact absurd h (not_lt.mpr hc.1)

theorem getJs_high (ps : List ℝ) (i : ℤ) (h : (ps.length : ℤ) ≤ i) : getJs ps i = JsVal.nan := by
  simp only [getJs, ite_eq_right_iff]
  intro hc
  exact absurd hc.2 (not_lt.mpr h)

theorem cornerLoop_stop (ps : List ℝ) (n : ℤ) (h : ¬ n < (ps.length : ℤ) - 4) :
    cornerLoop ps n = [] := by
  rw [cornerLoop]
  exact dif_neg h

theorem cornerLoop_step (ps : List ℝ) (n : ℤ) (h : n < (ps.length : ℤ) - 4) :
    cornerLoop ps n =
      Cmd.lineTo (x1v ps n) (y1v ps n) ::
      Cmd.quadraticCurveTo (getJs ps (n + 2)) (getJs ps (n + 3)) (x2v ps n) (y2v ps n) ::
      cornerLoop ps (n + 2) := by
  rw [cornerLoop]
  exact dif_pos h

theorem getD_append_pair_left (front : List ℝ) (a b : ℝ) :
    (front ++ [a, b]).getD front.length 0 = a := by
  induction front with
  | nil => rfl
  | cons x xs ih => simpa using ih

theorem getD_append_pair_right (front : List ℝ) (a b : ℝ) :
    (front ++ [a, b]).getD (front.length + 1) 0 = b := by
  induction front with
  | nil => rfl
  | cons x xs ih => simpa using ih

theorem drawStep_append (front : List ℝ) (a b : ℝ) (s : ℝ → ℝ → ℝ × ℝ) :
    drawStep (front ++ [a, b]) s = (front ++ [a, b]) ++ [(s a b).1, (s a b).2] := by
  have hlen : (front ++ [a, b]).length = front.length + 2 := by simp
  have h2 : (front ++ [a, b]).length - 2 = front.length := by omega
  have h1 : (front ++ [a, b]).length - 1 = front.length + 1 := by omega
  rw [drawStep, h2, h1, getD_append_pair_left, getD_append_pair_right]

theorem foldl_drawStep_append (steps : List (ℝ → ℝ → ℝ × ℝ)) :
    ∀ (front : List ℝ) (a b : ℝ),
      List.foldl drawStep (front ++ [a, b]) steps = front ++ List.foldl drawStep [a, b] steps := by
  induction steps with
  | nil => intro front a b; rfl
  | cons s rest ih =>
    intro front a b
    have hstep : drawStep (front ++ [a, b]) s = (front ++ [a, b]) ++ [(s a b).1, (s a b).2] :=
      drawStep_append front a b s
    have hstep0 : drawStep ([a, b] : List ℝ) s = [a, b] ++ [(s a b).1, (s a b).2] := by
      simpa using drawStep_append [] a b s
    calc List.foldl drawStep (front ++ [a, b]) (s :: rest)
        = List.foldl drawStep ((front ++ [a, b]) ++ [(s a b).1, (s a b).2]) rest := by
          simp [List.foldl, hstep]
      _ = (front ++ [a, b]) ++ List.foldl drawStep [(s a b).1, (s a b).2] rest := ih _ _ _
      _ = front ++ ([a, b] ++ List.foldl drawStep [(s a b).1, (s a b).2] rest) := by
          simp [List.append_assoc]
      _ = front ++ List.foldl drawStep ([a, b] ++ [(s a b).1, (s a b).2]) rest := by
          rw [ih [a, b] (s a b).1 (s a b).2]
      _ = front ++ List.foldl drawStep [a, b] (s :: rest) := by
          simp [List.foldl, hstep0]

theorem foldl_drawStep_cons (a b : ℝ) (s : ℝ → ℝ → ℝ × ℝ) (rest : List (ℝ → ℝ → ℝ × ℝ)) :
    List.foldl drawStep [a, b] (s :: rest) =
      a :: b :: List.foldl drawStep [(s a b).1, (s a b).2] rest := by
  have hstep0 : drawStep ([a, b] : List ℝ) s = [a, b] ++ [(s a b).1, (s a b).2] := by
    simpa using drawStep_append [] a b s
  calc List.foldl drawStep [a, b] (s :: rest)
      = List.foldl drawStep ([a, b] ++ [(s a b).1, (s a b).2]) rest := by
        simp [List.foldl, hstep0]
    _ = [a, b] ++ List.foldl drawStep [(s a b).1, (s a b).2] rest :=
        foldl_drawStep_append rest [a, b] (s a b).1 (s a b).2
    _ = a :: b :: List.foldl drawStep [(s a b).1, (s a b).2] rest := by simp

theorem foldl_drawStep_length (steps : List (ℝ → ℝ → ℝ × ℝ)) :
    ∀ (a b : ℝ), (List.foldl drawStep [a, b] steps).length = 2 + 2 * steps.length := by
  induction steps with
  | nil => intro a b; rfl
  | cons s rest ih =>
    intro a b
    rw [foldl_drawStep_cons]
    simp only [List.length_cons, ih]
    omega

theorem drawPoints_cons (ox oy : ℝ) (s : ℝ → ℝ → ℝ × ℝ) (rest : List (ℝ → ℝ → ℝ × ℝ)) :
    drawPoints ox oy (s :: rest) =
      (s ox oy).1 :: (s ox oy).2 :: drawPoints (s ox oy).1 (s ox oy).2 rest := by
  rw [drawPoints, foldl_drawStep_cons, drawPoints]
  simp only [List.drop_succ_cons, List.drop_zero]
  cases rest with
  | nil => rfl
  | cons s2 r2 => rw [foldl_drawStep_cons]; rfl

theorem drawPoints_length (ox oy : ℝ) (steps : List (ℝ → ℝ → ℝ × ℝ)) :
    (drawPoints ox oy steps).length = 2 * steps.length := by
  rw [drawPoints]
  simp [foldl_drawStep_length]

/-- C2: the planning fold in `draw` starts the accumulator at the origin's
coordinates, invokes each step in order with the last two accumulated
coordinates, appends the returned pair, and finally removes the first two
accumulated values, so a list of k steps yields exactly 2k coordinates and
zero steps yield the empty list. -/
theorem c2_step_planning_fold (ox oy : ℝ) (steps : List (ℝ → ℝ → ℝ × ℝ)) :
    (drawPoints ox oy steps).length = 2 * steps.length
    ∧ drawPoints ox oy [] = []
    ∧ ∀ (s : ℝ → ℝ → ℝ × ℝ) (rest : List (ℝ → ℝ → ℝ × ℝ)),
        drawPoints ox oy (s :: rest) =
          (s ox oy).1 :: (s ox oy).2 :: drawPoints (s ox oy).1 (s ox oy).2 rest := by
  refine ⟨drawPoints_length ox oy steps, rfl, ?_⟩
  intro s rest
  exact drawPoints_cons ox oy s rest

theorem abs_half (x : ℝ) : |x / 2| = |x| / 2 := by
  rw [abs_div]
  norm_num

theorem brv_eq (ps : List ℝ) (n : ℤ) (h0 : 0 ≤ n) (h5 : n + 5 < (ps.length : ℤ)) :
    brv ps n = JsVal.num
      (min (min 40 (max (|ptR ps (n + 2) - ptR ps n| / 2) (|ptR ps (n + 3) - ptR ps (n + 1)| / 2)))
           (min 40 (max (|ptR ps (n + 4) - ptR ps (n + 2)| / 2) (|ptR ps (n + 5) - ptR ps (n + 3)| / 2)))) := by
  have e0 := getJs_in ps n h0 (by omega)
  have e1 := getJs_in ps (n + 1) (by omega) (by omega)
  have e2 := getJs_in ps (n + 2) (by omega) (by omega)
  have e3 := getJs_in ps (n + 3) (by omega) (by omega)
  have e4 := getJs_in ps (n + 4) (by omega) (by omega)
  have e5 := getJs_in ps (n + 5) (by omega) (by omega)
  simp [brv, br1v, br2v, dx1v, dy1v, dx2v, dy2v, e0, e1, e2, e3, e4, e5, abs_half]

theorem x1v_eq (ps : List ℝ) (n : ℤ) (b : ℝ) (h0 : 0 ≤ n) (h5 : n + 5 < (ps.length : ℤ))
    (hb : brv ps n = JsVal.num b) :
    x1v ps n = JsVal.num
      (ptR ps n + (|ptR ps (n + 2) - ptR ps n| - b) * jsSignR (ptR ps (n + 2) - ptR ps n)) := by
  have e0 := getJs_in ps n h0 (by omega)
  have e2 := getJs_in ps (n + 2) (by omega) (by omega)
  simp [x1v, dx1v, e0, e2, hb]

theorem y1v_eq (ps : List ℝ) (n : ℤ) (b : ℝ) (h0 : 0 ≤ n) (h5 : n + 5 < (ps.length : ℤ))
    (hb : brv ps n = JsVal.num b) :
    y1v ps n = JsVal.num
      (ptR ps (n + 1) + (|ptR ps (n + 3) - ptR ps (n + 1)| - b) * jsSignR (ptR ps (n + 3) - ptR ps (n + 1))) := by
  have e1 := getJs_in ps (n + 1) (by omega) (by omega)
  have e3 := getJs_in ps (n + 3) (by omega) (by omega)
  simp [y1v, dy1v, e1, e3, hb]

theorem x2v_eq (ps : List ℝ) (n : ℤ) (b : ℝ) (h0 : 0 ≤ n) (h5 : n + 5 < (ps.length : ℤ))
    (hb : brv ps n = JsVal.num b) :
    x2v ps n = JsVal.num
      (ptR ps (n + 2) + b * jsSignR (ptR ps (n + 4) - ptR ps (n + 2))) := by
  have e2 := getJs_in ps (n + 2) (by omega) (by omega)
  have e4 := getJs_in ps (n + 4) (by omega) (by omega)
  simp [x2v, dx2v, e2, e4, hb]

theorem y2v_eq (ps : List ℝ) (n : ℤ) (b : ℝ) (h0 : 0 ≤ n) (h5 : n + 5 < (ps.length : ℤ))
    (hb : brv ps n = JsVal.num b) :
    y2v ps n = JsVal.num
      (ptR ps (n + 3) + b * jsSignR (ptR ps (n + 5) - ptR ps (n + 3))) := by
  have e3 := getJs_in ps (n + 3) (by omega) (by omega)
  have e5 := getJs_in ps (n + 5) (by omega) (by omega)
  simp [y2v, dy2v, e3, e5, hb]

theorem between_pullback (p q b : ℝ) (hb0 : 0 ≤ b) (hb : b ≤ |q - p|) :
    min p q ≤ p + (|q - p| - b) * jsSignR (q - p)
    ∧ p + (|q - p| - b) * jsSignR (q - p) ≤ max p q := by
  rcases lt_trichotomy (q - p) 0 with h | h | h
  · have hq : q ≤ p := by linarith
    rw [abs_of_neg h] at hb
    rw [jsSignR, if_pos h, abs_of_neg h, min_eq_right hq, max_eq_left hq]
    constructor <;> nlinarith
  · have hq : q = p := by linarith
    rw [hq] at *
    rw [jsSignR]
    simp
  · have hq : p ≤ q := by linarith
    rw [abs_of_pos h] at hb
    rw [jsSignR, if_neg (by linarith), if_pos h, abs_of_pos h, min_eq_left hq, max_eq_right hq]
    constructor <;> nlinarith

theorem between_pushforward (p q b : ℝ) (hb0 : 0 ≤ b) (hb : b ≤ |q - p|) :
    min p q ≤ p + b * jsSignR (q - p) ∧ p + b * jsSignR (q - p) ≤ max p q := by
  rcases lt_trichotomy (q - p) 0 with h | h | h
  · have hq : q ≤ p := by linarith
    rw [abs_of_neg h] at hb
    rw [jsSignR, if_pos h, min_eq_right hq, max_eq_left hq]
    constructor <;> nlinarith
  · have hq : q = p := by linarith
    rw [hq] at *
    rw [jsSignR]
    simp
  · have hq : p ≤ q := by linarith
    rw [abs_of_pos h] at hb
    rw [jsSignR, if_neg (by linarith), if_pos h, min_eq_left hq, max_eq_right hq]
    constructor <;> nlinarith

theorem sceneFuncArrow_pair (x y : ℝ) :
    sceneFuncArrow [x, y] =
      [Cmd.beginPath, Cmd.moveTo (JsVal.num x) (JsVal.num y),
       Cmd.lineTo (JsVal.num x) (JsVal.num y),
       Cmd.lineTo JsVal.nan JsVal.nan,
       Cmd.moveTo (JsVal.num x) (JsVal.num y),
       Cmd.lineTo JsVal.nan JsVal.nan, Cmd.strokeShape] := by
  have h0 : getJs [x, y] 0 = JsVal.num x := rfl
  have h1 : getJs [x, y] 1 = JsVal.num y := rfl
  have hm1 : getJs [x, y] (-1) = JsVal.nan := rfl
  have hm2 : getJs [x, y] (-2) = JsVal.nan := rfl
  have hcl : cornerLoop [x, y] 0 = [] := cornerLoop_stop _ 0 (by norm_num)
  norm_num [sceneFuncArrow, hcl, h0, h1, hm1, hm2]

theorem applyHover_rest {α : Type} (hw nw : ℝ) :
    ∀ (evs : List HoverEvent) (s : ShapeAttrs α), (applyHover hw nw s evs).rest = s.rest := by
  intro evs
  induction evs with
  | nil => intro s; rfl
  | cons e rest ih =>
    intro s
    cases e with
    | enter => exact ih (onMouseEnter hw s)
    | leave => exact ih (onMouseLeave nw s)

theorem applyHover_strokeWidth {α : Type} (hw nw : ℝ) :
    ∀ (evs : List HoverEvent) (s : ShapeAttrs α),
      evs.getLast? = some HoverEvent.leave → (applyHover hw nw s evs).strokeWidth = nw := by
  intro evs
  induction evs with
  | nil => intro s h; simp at h
  | cons e rest ih =>
    intro s h
    cases rest with
    | nil =>
      cases e with
      | enter => simp [List.getLast?] at h
      | leave => rfl
    | cons e2 rest2 =>
      have h2 : (e2 :: rest2).getLast? = some HoverEvent.leave := by
        rwa [List.getLast?_cons_cons] at h
      cases e with
      | enter => exact ih (onMouseEnter hw s) h2
      | leave => exact ih (onMouseLeave nw s) h2

theorem drawSeq_keys (arrows : List ArrowState) :
    ∀ k : ℕ, (drawSeq arrows k).1 = List.range' k arrows.length := by
  induction arrows with
  | nil => intro k; rfl
  | cons a rest ih =>
    intro k
    simp only [drawSeq, draw, List.length_cons]
    rw [ih]
    rfl

/-- C1 counterexample: on the empty coordinate list (produced when no target
is set), `sceneFunc` still emits drawing commands (a beginPath/moveTo/lineTo
skeleton with NaN coordinates), refuting the claim that render emits no
drawing commands for lists with fewer than 4 values. -/
theorem c1_counterexample_short_list_emits_commands :
    sceneFuncArrow ([] : List ℝ) ≠ [] ∧ sceneFuncPath ([] : List ℝ) ≠ [] := by
  constructor <;> simp [sceneFuncArrow, sceneFuncPath]

/-- C1 (amended): for every coordinate list with fewer than 4 values, both
sceneFunc variants run without failing and without faulting on the
out-of-range reads, emitting a fixed command skeleton in which the chevron
coordinates are NaN (so no visible arrowhead geometry results); no corner
loop iteration runs and no division or index fault occurs. -/
theorem c1_short_list_skeleton (ps : List ℝ) (h : ps.length < 4) :
    sceneFuncArrow ps =
      [Cmd.beginPath, Cmd.moveTo (getJs ps 0) (getJs ps 1),
       Cmd.lineTo (getJs ps ((ps.length : ℤ) - 2)) (getJs ps ((ps.length : ℤ) - 1)),
       Cmd.lineTo JsVal.nan JsVal.nan,
       Cmd.moveTo (getJs ps ((ps.length : ℤ) - 2)) (getJs ps ((ps.length : ℤ) - 1)),
       Cmd.lineTo JsVal.nan JsVal.nan, Cmd.strokeShape]
    ∧ sceneFuncPath ps =
      [Cmd.beginPath, Cmd.moveTo (getJs ps 0) (getJs ps 1),
       Cmd.lineTo (getJs ps ((ps.length : ℤ) - 2)) (getJs ps ((ps.length : ℤ) - 1)),
       Cmd.strokeShape] := by
  have hne : ¬ ps.length = 4 := by omega
  have hcl : cornerLoop ps 0 = [] := cornerLoop_stop ps 0 (by omega)
  have hm4 : getJs ps ((ps.length : ℤ) - 4) = JsVal.nan := getJs_low ps _ (by omega)
  constructor
  · simp [sceneFuncArrow, hne, hcl, hm4]
  · simp [sceneFuncPath, hne, hcl]

/-- C1 witness: the skeleton theorem applied to the concrete two-value list
[1, 2]. -/
theorem c1_short_list_skeleton_witness :
    ([1, 2] : List ℝ).length < 4
    ∧ (sceneFuncArrow [1, 2] =
        [Cmd.beginPath, Cmd.moveTo (getJs [1, 2] 0) (getJs [1, 2] 1),
         Cmd.lineTo (getJs [1, 2] ((([1, 2] : List ℝ).length : ℤ) - 2))
                    (getJs [1, 2] ((([1, 2] : List ℝ).length : ℤ) - 1)),
         Cmd.lineTo JsVal.nan JsVal.nan,
         Cmd.moveTo (getJs [1, 2] ((([1, 2] : List ℝ).length : ℤ) - 2))
                    (getJs [1, 2] ((([1, 2] : List ℝ).length : ℤ) - 1)),
         Cmd.lineTo JsVal.nan JsVal.nan, Cmd.strokeShape]
      ∧ sceneFuncPath [1, 2] =
        [Cmd.beginPath, Cmd.moveTo (getJs [1, 2] 0) (getJs [1, 2] 1),
         Cmd.lineTo (getJs [1, 2] ((([1, 2] : List ℝ).length : ℤ) - 2))
                    (getJs [1, 2] ((([1, 2] : List ℝ).length : ℤ) - 1)),
         Cmd.strokeShape]) :=
  ⟨by decide, c1_short_list_skeleton [1, 2] (by decide)⟩

/-- C3 counterexample: for the point list (0,0), (50,10), (100,20) the corner
loop at the single interior joint computes the pull-back ordinate
y1 = 0 + (|10| - 25) * sign(10) = -15, which is not even weakly between the
previous point's ordinate 0 and the joint's ordinate 10 — the rounding
overshoots past the adjacent point, refuting the strict-betweenness claim. -/
theorem c3_counterexample_pullback_overshoots :
    y1v ([0, 0, 50, 10, 100, 20] : List ℝ) 0 = JsVal.num (-15)
    ∧ ptR ([0, 0, 50, 10, 100, 20] : List ℝ) 1 = 0
    ∧ ptR ([0, 0, 50, 10, 100, 20] : List ℝ) 3 = 10
    ∧ ¬(min (0 : ℝ) 10 ≤ -15 ∧ (-15 : ℝ) ≤ max 0 10) := by
  have hbr : brv ([0, 0, 50, 10, 100, 20] : List ℝ) 0 = JsVal.num 25 := by
    have h := brv_eq ([0, 0, 50, 10, 100, 20] : List ℝ) 0 (by norm_num) (by norm_num)
    have p0 : ptR ([0, 0, 50, 10, 100, 20] : List ℝ) 0 = 0 := rfl
    have p1 : ptR ([0, 0, 50, 10, 100, 20] : List ℝ) (0 + 1) = 0 := rfl
    have p2 : ptR ([0, 0, 50, 10, 100, 20] : List ℝ) (0 + 2) = 50 := rfl
    have p3 : ptR ([0, 0, 50, 10, 100, 20] : List ℝ) (0 + 3) = 10 := rfl
    have p4 : ptR ([0, 0, 50, 10, 100, 20] : List ℝ) (0 + 4) = 100 := rfl
    have p5 : ptR ([0, 0, 50, 10, 100, 20] : List ℝ) (0 + 5) = 20 := rfl
    rw [p0, p1, p2, p3, p4, p5] at h
    rw [h]
    norm_num [abs_of_nonneg, min_def, max_def]
  have h1 := y1v_eq ([0, 0, 50, 10, 100, 20] : List ℝ) 0 25 (by norm_num) (by norm_num) hbr
  have p1 : ptR ([0, 0, 50, 10, 100, 20] : List ℝ) (0 + 1) = 0 := rfl
  have p3 : ptR ([0, 0, 50, 10, 100, 20] : List ℝ) (0 + 3) = 10 := rfl
  rw [p1, p3] at h1
  refine ⟨?_, rfl, rfl, ?_⟩
  · rw [h1]
    norm_num [jsSignR, abs_of_nonneg]
  · norm_num

/-- C3 (amended): at every in-range joint the radius br is a real number
with 0 ≤ br ≤ min of the half L∞ segment lengths (half of max(|dx|, |dy|)
per segment, the axis that dominates); consequently, in each segment's
dominant axis the pull-back and push-forward coordinates lie weakly
between the joint and the adjacent original point. In the minor axis of a
non-axis-aligned segment the rounding can overshoot, and betweenness is
weak rather than strict. -/
theorem c3_radius_clamp_and_dominant_axis (ps : List ℝ) (n : ℤ)
    (h0 : 0 ≤ n) (h5 : n + 5 < (ps.length : ℤ)) :
    ∃ b : ℝ, brv ps n = JsVal.num b
      ∧ 0 ≤ b
      ∧ b ≤ max |ptR ps (n + 2) - ptR ps n| |ptR ps (n + 3) - ptR ps (n + 1)| / 2
      ∧ b ≤ max |ptR ps (n + 4) - ptR ps (n + 2)| |ptR ps (n + 5) - ptR ps (n + 3)| / 2
      ∧ (|ptR ps (n + 3) - ptR ps (n + 1)| ≤ |ptR ps (n + 2) - ptR ps n| →
          ∃ x1 : ℝ, x1v ps n = JsVal.num x1
            ∧ min (ptR ps n) (ptR ps (n + 2)) ≤ x1 ∧ x1 ≤ max (ptR ps n) (ptR ps (n + 2)))
      ∧ (|ptR ps (n + 2) - ptR ps n| ≤ |ptR ps (n + 3) - ptR ps (n + 1)| →
          ∃ y1 : ℝ, y1v ps n = JsVal.num y1
            ∧ min (ptR ps (n + 1)) (ptR ps (n + 3)) ≤ y1 ∧ y1 ≤ max (ptR ps (n + 1)) (ptR ps (n + 3)))
      ∧ (|ptR ps (n + 5) - ptR ps (n + 3)| ≤ |ptR ps (n + 4) - ptR ps (n + 2)| →
          ∃ x2 : ℝ, x2v ps n = JsVal.num x2
            ∧ min (ptR ps (n + 2)) (ptR ps (n + 4)) ≤ x2 ∧ x2 ≤ max (ptR ps (n + 2)) (ptR ps (n + 4)))
      ∧ (|ptR ps (n + 4) - ptR ps (n + 2)| ≤ |ptR ps (n + 5) - ptR ps (n + 3)| →
          ∃ y2 : ℝ, y2v ps n = JsVal.num y2
            ∧ min (ptR ps (n + 3)) (ptR ps (n + 5)) ≤ y2 ∧ y2 ≤ max (ptR ps (n + 3)) (ptR ps (n + 5))) := by
  have hbr := brv_eq ps n h0 h5
  set d1 := ptR ps (n + 2) - ptR ps n with hd1
  set e1 := ptR ps (n + 3) - ptR ps (n + 1) with he1
  set d2 := ptR ps (n + 4) - ptR ps (n + 2) with hd2
  set e2 := ptR ps (n + 5) - ptR ps (n + 3) with he2
  set B := min (min 40 (max (|d1| / 2) (|e1| / 2))) (min 40 (max (|d2| / 2) (|e2| / 2))) with hB
  have hB0 : 0 ≤ B := by
    apply le_min
    · exact le_min (by norm_num) (le_max_of_le_left (by positivity))
    · exact le_min (by norm_num) (le_max_of_le_left (by positivity))
  have hB1 : B ≤ max |d1| |e1| / 2 := by
    calc B ≤ min 40 (max (|d1| / 2) (|e1| / 2)) := min_le_left _ _
      _ ≤ max (|d1| / 2) (|e1| / 2) := min_le_right _ _
      _ = max |d1| |e1| / 2 := max_div_div_right (by norm_num) _ _
  have hB2 : B ≤ max |d2| |e2| / 2 := by
    calc B ≤ min 40 (max (|d2| / 2) (|e2| / 2)) := min_le_right _ _
      _ ≤ max (|d2| / 2) (|e2| / 2) := min_le_right _ _
      _ = max |d2| |e2| / 2 := max_div_div_right (by norm_num) _ _
  refine ⟨B, hbr, hB0, hB1, hB2, ?_, ?_, ?_, ?_⟩
  · intro hdom
    have hble : B ≤ |d1| := by
      have hmx : max |d1| |e1| = |d1| := max_eq_left hdom
      rw [hmx] at hB1
      linarith [abs_nonneg d1]
    exact ⟨_, x1v_eq ps n B h0 h5 hbr,
      (between_pullback (ptR ps n) (ptR ps (n + 2)) B hB0 (by rw [← hd1]; exact hble)).1,
      (between_pullback (ptR ps n) (ptR ps (n + 2)) B hB0 (by rw [← hd1]; exact hble)).2⟩
  · intro hdom
    have hble : B ≤ |e1| := by
      have hmx : max |d1| |e1| = |e1| := max_eq_right hdom
      rw [hmx] at hB1
      linarith [abs_nonneg e1]
    exact ⟨_, y1v_eq ps n B h0 h5 hbr,
      (between_pullback (ptR ps (n + 1)) (ptR ps (n + 3)) B hB0 (by rw [← he1]; exact hble)).1,
      (between_pullback (ptR ps (n + 1)) (ptR ps (n + 3)) B hB0 (by rw [← he1]; exact hble)).2⟩
  · intro hdom
    have hble : B ≤ |d2| := by
      have hmx : max |d2| |e2| = |d2| := max_eq_left hdom
      rw [hmx] at hB2
      linarith [abs_nonneg d2]
    exact ⟨_, x2v_eq ps n B h0 h5 hbr,
      (between_pushforward (ptR ps (n + 2)) (ptR ps (n + 4)) B hB0 (by rw [← hd2]; exact hble)).1,
      (between_pushforward (ptR ps (n + 2)) (ptR ps (n + 4)) B hB0 (by rw [← hd2]; exact hble)).2⟩
  · intro hdom
    have hble : B ≤ |e2| := by
      have hmx : max |d2| |e2| = |e2| := max_eq_right hdom
      rw [hmx] at hB2
      linarith [abs_nonneg e2]
    exact ⟨_, y2v_eq ps n B h0 h5 hbr,
      (between_pushforward (ptR ps (n + 3)) (ptR ps (n + 5)) B hB0 (by rw [← he2]; exact hble)).1,
      (between_pushforward (ptR ps (n + 3)) (ptR ps (n + 5)) B hB0 (by rw [← he2]; exact hble)).2⟩

/-- C3 witness: the clamp-and-dominant-axis theorem applied to the concrete
right-angle list (0,0), (50,0), (50,50) at joint offset 0. -/
theorem c3_radius_clamp_and_dominant_axis_witness :
    (0 : ℤ) ≤ 0
    ∧ (0 : ℤ) + 5 < (([0, 0, 50, 0, 50, 50] : List ℝ).length : ℤ)
    ∧ (∃ b : ℝ, brv ([0, 0, 50, 0, 50, 50] : List ℝ) 0 = JsVal.num b
      ∧ 0 ≤ b
      ∧ b ≤ max |ptR ([0, 0, 50, 0, 50, 50] : List ℝ) (0 + 2) - ptR ([0, 0, 50, 0, 50, 50] : List ℝ) 0|
              |ptR ([0, 0, 50, 0, 50, 50] : List ℝ) (0 + 3) - ptR ([0, 0, 50, 0, 50, 50] : List ℝ) (0 + 1)| / 2
      ∧ b ≤ max |ptR ([0, 0, 50, 0, 50, 50] : List ℝ) (0 + 4) - ptR ([0, 0, 50, 0, 50, 50] : List ℝ) (0 + 2)|
              |ptR ([0, 0, 50, 0, 50, 50] : List ℝ) (0 + 5) - ptR ([0, 0, 50, 0, 50, 50] : List ℝ) (0 + 3)| / 2
      ∧ (|ptR ([0, 0, 50, 0, 50, 50] : List ℝ) (0 + 3) - ptR ([0, 0, 50, 0, 50, 50] : List ℝ) (0 + 1)| ≤
           |ptR ([0, 0, 50, 0, 50, 50] : List ℝ) (0 + 2) - ptR ([0, 0, 50, 0, 50, 50] : List ℝ) 0| →
          ∃ x1 : ℝ, x1v ([0, 0, 50, 0, 50, 50] : List ℝ) 0 = JsVal.num x1
            ∧ min (ptR ([0, 0, 50, 0, 50, 50] : List ℝ) 0) (ptR ([0, 0, 50, 0, 50, 50] : List ℝ) (0 + 2)) ≤ x1
            ∧ x1 ≤ max (ptR ([0, 0, 50, 0, 50, 50] : List ℝ) 0) (ptR ([0, 0, 50, 0, 50, 50] : List ℝ) (0 + 2)))
      ∧ (|ptR ([0, 0, 50, 0, 50, 50] : List ℝ) (0 + 2) - ptR ([0, 0, 50, 0, 50, 50] : List ℝ) 0| ≤
           |ptR ([0, 0, 50, 0, 50, 50] : List ℝ) (0 + 3) - ptR ([0, 0, 50, 0, 50, 50] : List ℝ) (0 + 1)| →
          ∃ y1 : ℝ, y1v ([0, 0, 50, 0, 50, 50] : List ℝ) 0 = JsVal.num y1
            ∧ min (ptR ([0, 0, 50, 0, 50, 50] : List ℝ) (0 + 1)) (ptR ([0, 0, 50, 0, 50, 50] : List ℝ) (0 + 3)) ≤ y1
            ∧ y1 ≤ max (ptR ([0, 0, 50, 0, 50, 50] : List ℝ) (0 + 1)) (ptR ([0, 0, 50, 0, 50, 50] : List ℝ) (0 + 3)))
      ∧ (|ptR ([0, 0, 50, 0, 50, 50] : List ℝ) (0 + 5) - ptR ([0, 0, 50, 0, 50, 50] : List ℝ) (0 + 3)| ≤
           |ptR ([0, 0, 50, 0, 50, 50] : List ℝ) (0 + 4) - ptR ([0, 0, 50, 0, 50, 50] : List ℝ) (0 + 2)| →
          ∃ x2 : ℝ, x2v ([0, 0, 50, 0, 50, 50] : List ℝ) 0 = JsVal.num x2
            ∧ min (ptR ([0, 0, 50, 0, 50, 50] : List ℝ) (0 + 2)) (ptR ([0, 0, 50, 0, 50, 50] : List ℝ) (0 + 4)) ≤ x2
            ∧ x2 ≤ max (ptR ([0, 0, 50, 0, 50, 50] : List ℝ) (0 + 2)) (ptR ([0, 0, 50, 0, 50, 50] : List ℝ) (0 + 4)))
      ∧ (|ptR ([0, 0, 50, 0, 50, 50] : List ℝ) (0 + 4) - ptR ([0, 0, 50, 0, 50, 50] : List ℝ) (0 + 2)| ≤
           |ptR ([0, 0, 50, 0, 50, 50] : List ℝ) (0 + 5) - ptR ([0, 0, 50, 0, 50, 50] : List ℝ) (0 + 3)| →
          ∃ y2 : ℝ, y2v ([0, 0, 50, 0, 50, 50] : List ℝ) 0 = JsVal.num y2
            ∧ min (ptR ([0, 0, 50, 0, 50, 50] : List ℝ) (0 + 3)) (ptR ([0, 0, 50, 0, 50, 50] : List ℝ) (0 + 5)) ≤ y2
            ∧ y2 ≤ max (ptR ([0, 0, 50, 0, 50, 50] : List ℝ) (0 + 3)) (ptR ([0, 0, 50, 0, 50, 50] : List ℝ) (0 + 5)))) :=
  ⟨by decide, by decide,
   c3_radius_clamp_and_dominant_axis ([0, 0, 50, 0, 50, 50] : List ℝ) 0 (by decide) (by decide)⟩

/-- C4: every corner-loop iteration emits its quadratic curve with the
literal joint coordinate (points at offsets n+2, n+3) as the control point;
and on the concrete right-angle scenario (0,0), (50,0), (50,50) the joint
radius is 25, the pull-back point is (25, 0), the control point is the
joint (50, 0), and the push-forward point is (50, 25). -/
theorem c4_quad_control_point_is_joint :
    (∀ (ps : List ℝ) (n : ℤ), n < (ps.length : ℤ) - 4 →
      cornerLoop ps n =
        Cmd.lineTo (x1v ps n) (y1v ps n) ::
        Cmd.quadraticCurveTo (getJs ps (n + 2)) (getJs ps (n + 3)) (x2v ps n) (y2v ps n) ::
        cornerLoop ps (n + 2))
    ∧ brv ([0, 0, 50, 0, 50, 50] : List ℝ) 0 = JsVal.num 25
    ∧ x1v ([0, 0, 50, 0, 50, 50] : List ℝ) 0 = JsVal.num 25
    ∧ y1v ([0, 0, 50, 0, 50, 50] : List ℝ) 0 = JsVal.num 0
    ∧ getJs ([0, 0, 50, 0, 50, 50] : List ℝ) (0 + 2) = JsVal.num 50
    ∧ getJs ([0, 0, 50, 0, 50, 50] : List ℝ) (0 + 3) = JsVal.num 0
    ∧ x2v ([0, 0, 50, 0, 50, 50] : List ℝ) 0 = JsVal.num 50
    ∧ y2v ([0, 0, 50, 0, 50, 50] : List ℝ) 0 = JsVal.num 25 := by
  have hbr : brv ([0, 0, 50, 0, 50, 50] : List ℝ) 0 = JsVal.num 25 := by
    have h := brv_eq ([0, 0, 50, 0, 50, 50] : List ℝ) 0 (by norm_num) (by norm_num)
    have p0 : ptR ([0, 0, 50, 0, 50, 50] : List ℝ) 0 = 0 := rfl
    have p1 : ptR ([0, 0, 50, 0, 50, 50] : List ℝ) (0 + 1) = 0 := rfl
    have p2 : ptR ([0, 0, 50, 0, 50, 50] : List ℝ) (0 + 2) = 50 := rfl
    have p3 : ptR ([0, 0, 50, 0, 50, 50] : List ℝ) (0 + 3) = 0 := rfl
    have p4 : ptR ([0, 0, 50, 0, 50, 50] : List ℝ) (0 + 4) = 50 := rfl
    have p5 : ptR ([0, 0, 50, 0, 50, 50] : List ℝ) (0 + 5) = 50 := rfl
    rw [p0, p1, p2, p3, p4, p5] at h
    rw [h]
    norm_num [abs_of_nonneg, min_def, max_def]
  have p0 : ptR ([0, 0, 50, 0, 50, 50] : List ℝ) 0 = 0 := rfl
  have p1 : ptR ([0, 0, 50, 0, 50, 50] : List ℝ) (0 + 1) = 0 := rfl
  have p2 : ptR ([0, 0, 50, 0, 50, 50] : List ℝ) (0 + 2) = 50 := rfl
  have p3 : ptR ([0, 0, 50, 0, 50, 50] : List ℝ) (0 + 3) = 0 := rfl
  have p4 : ptR ([0, 0, 50, 0, 50, 50] : List ℝ) (0 + 4) = 50 := rfl
  have p5 : ptR ([0, 0, 50, 0, 50, 50] : List ℝ) (0 + 5) = 50 := rfl
  refine ⟨fun ps n h => cornerLoop_step ps n h, hbr, ?_, ?_, ?_, ?_, ?_, ?_⟩
  · have h := x1v_eq ([0, 0, 50, 0, 50, 50] : List ℝ) 0 25 (by norm_num) (by norm_num) hbr
    rw [p0, p2] at h
    rw [h]
    norm_num [jsSignR, abs_of_nonneg]
  · have h := y1v_eq ([0, 0, 50, 0, 50, 50] : List ℝ) 0 25 (by norm_num) (by norm_num) hbr
    rw [p1, p3] at h
    rw [h]
    norm_num [jsSignR]
  · rw [getJs_in _ _ (by norm_num) (by norm_num), p2]
  · rw [getJs_in _ _ (by norm_num) (by norm_num), p3]
  · have h := x2v_eq ([0, 0, 50, 0, 50, 50] : List ℝ) 0 25 (by norm_num) (by norm_num) hbr
    rw [p2, p4] at h
    rw [h]
    norm_num [jsSignR]
  · have h := y2v_eq ([0, 0, 50, 0, 50, 50] : List ℝ) 0 25 (by norm_num) (by norm_num) hbr
    rw [p3, p5] at h
    rw [h]
    norm_num [jsSignR]

/-- C4 witness: the loop-step component applied to the concrete scenario
list at joint offset 0, whose guard 0 < 6 - 4 holds. -/
theorem c4_quad_control_point_is_joint_witness :
    (0 : ℤ) < (([0, 0, 50, 0, 50, 50] : List ℝ).length : ℤ) - 4
    ∧ cornerLoop ([0, 0, 50, 0, 50, 50] : List ℝ) 0 =
        Cmd.lineTo (x1v ([0, 0, 50, 0, 50, 50] : List ℝ) 0) (y1v ([0, 0, 50, 0, 50, 50] : List ℝ) 0) ::
        Cmd.quadraticCurveTo (getJs ([0, 0, 50, 0, 50, 50] : List ℝ) (0 + 2))
          (getJs ([0, 0, 50, 0, 50, 50] : List ℝ) (0 + 3))
          (x2v ([0, 0, 50, 0, 50, 50] : List ℝ) 0) (y2v ([0, 0, 50, 0, 50, 50] : List ℝ) 0) ::
        cornerLoop ([0, 0, 50, 0, 50, 50] : List ℝ) (0 + 2) :=
  ⟨by decide, c4_quad_control_point_is_joint.1 ([0, 0, 50, 0, 50, 50] : List ℝ) 0 (by decide)⟩

/-- C5 counterexample: with anchor (0,0) and target (100,0) the planned
sequence is [100, 0] as claimed, but the render does not draw a line from
the anchor — no command of the sceneFunc references (0,0) as a start point
(the path begins and ends at (100,0)) — and a chevron stroke with NaN
coordinates is emitted instead of the claimed finite chevron. -/
theorem c5_counterexample_render_not_from_anchor :
    drawPoints 0 0 (calculateSteps (some ⟨100, 0⟩)) = [100, 0]
    ∧ Cmd.moveTo (JsVal.num 0) (JsVal.num 0) ∉ sceneFuncArrow [100, 0]
    ∧ Cmd.lineTo JsVal.nan JsVal.nan ∈ sceneFuncArrow [100, 0] := by
  refine ⟨rfl, ?_, ?_⟩
  · rw [sceneFuncArrow_pair]
    norm_num
    exact ⟨fun h => Cmd.noConfusion h, fun h => Cmd.noConfusion h,
           fun h => Cmd.noConfusion h, fun h => Cmd.noConfusion h⟩
  · rw [sceneFuncArrow_pair]
    norm_num

/-- C5 (amended): for the base variant with anchor (0,0) and target (100,0),
`draw` produces the coordinate sequence [100, 0]; because the origin is
spliced off, the sceneFunc receives a single point and emits a zero-length
path moveTo(100,0), lineTo(100,0) — not a segment from the anchor — and the
arrowhead angle is NaN (atan2 over out-of-range reads), so both chevron
strokes have NaN coordinates. -/
theorem c5_base_variant_degenerate_render :
    drawPoints 0 0 (calculateSteps (some ⟨100, 0⟩)) = [100, 0]
    ∧ sceneFuncArrow [100, 0] =
      [Cmd.beginPath, Cmd.moveTo (JsVal.num 100) (JsVal.num 0),
       Cmd.lineTo (JsVal.num 100) (JsVal.num 0),
       Cmd.lineTo JsVal.nan JsVal.nan,
       Cmd.moveTo (JsVal.num 100) (JsVal.num 0),
       Cmd.lineTo JsVal.nan JsVal.nan, Cmd.strokeShape] :=
  ⟨rfl, sceneFuncArrow_pair 100 0⟩

/-- C6: for every point list with at least 4 values, the arrowhead heading
is atan2 of the differences of the final two points, and the two chevron
strokes of length 10 leave the terminal point (reached by the preceding
lineTo and re-established by a moveTo) and end at
(terminal - 10 cos(angle ∓ π/6), terminal - 10 sin(angle ∓ π/6)). -/
theorem c6_arrowhead_heading_and_chevron (ps : List ℝ) (h : 4 ≤ ps.length) :
    ∃ (tx ty px py : ℝ) (pre : List Cmd),
      getJs ps ((ps.length : ℤ) - 2) = JsVal.num tx
      ∧ getJs ps ((ps.length : ℤ) - 1) = JsVal.num ty
      ∧ getJs ps ((ps.length : ℤ) - 4) = JsVal.num px
      ∧ getJs ps ((ps.length : ℤ) - 3) = JsVal.num py
      ∧ sceneFuncArrow ps = pre ++
        [Cmd.lineTo (JsVal.num tx) (JsVal.num ty),
         Cmd.lineTo (JsVal.num (tx - 10 * Real.cos (atan2R (ty - py) (tx - px) - Real.pi / 6)))
                    (JsVal.num (ty - 10 * Real.sin (atan2R (ty - py) (tx - px) - Real.pi / 6))),
         Cmd.moveTo (JsVal.num tx) (JsVal.num ty),
         Cmd.lineTo (JsVal.num (tx - 10 * Real.cos (atan2R (ty - py) (tx - px) + Real.pi / 6)))
                    (JsVal.num (ty - 10 * Real.sin (atan2R (ty - py) (tx - px) + Real.pi / 6))),
         Cmd.strokeShape] := by
  have e2 : getJs ps ((ps.length : ℤ) - 2) = JsVal.num (ptR ps ((ps.length : ℤ) - 2)) :=
    getJs_in _ _ (by omega) (by omega)
  have e1 : getJs ps ((ps.length : ℤ) - 1) = JsVal.num (ptR ps ((ps.length : ℤ) - 1)) :=
    getJs_in _ _ (by omega) (by omega)
  have e3 : getJs ps ((ps.length : ℤ) - 3) = JsVal.num (ptR ps ((ps.length : ℤ) - 3)) :=
    getJs_in _ _ (by omega) (by omega)
  have e4 : getJs ps ((ps.length : ℤ) - 4) = JsVal.num (ptR ps ((ps.length : ℤ) - 4)) :=
    getJs_in _ _ (by omega) (by omega)
  by_cases h4 : ps.length = 4
  · have i2 : (ps.length : ℤ) - 2 = 2 := by omega
    have i1 : (ps.length : ℤ) - 1 = 3 := by omega
    have i3 : (ps.length : ℤ) - 3 = 1 := by omega
    have i4 : (ps.length : ℤ) - 4 = 0 := by omega
    have g0 : getJs ps 0 = JsVal.num (ptR ps 0) := getJs_in _ _ (by norm_num) (by omega)
    have g1 : getJs ps 1 = JsVal.num (ptR ps 1) := getJs_in _ _ (by norm_num) (by omega)
    have g2 : getJs ps 2 = JsVal.num (ptR ps 2) := getJs_in _ _ (by norm_num) (by omega)
    have g3 : getJs ps 3 = JsVal.num (ptR ps 3) := getJs_in _ _ (by norm_num) (by omega)
    refine ⟨ptR ps 2, ptR ps 3, ptR ps 0, ptR ps 1,
            [Cmd.beginPath, Cmd.moveTo (getJs ps 0) (getJs ps 1)],
            by rw [i2]; exact g2, by rw [i1]; exact g3,
            by rw [i4]; exact g0, by rw [i3]; exact g1, ?_⟩
    simp only [sceneFuncArrow, if_pos h4, i2, i1, i3, i4, g0, g1, g2, g3]
    simp
  · refine ⟨ptR ps ((ps.length : ℤ) - 2), ptR ps ((ps.length : ℤ) - 1),
            ptR ps ((ps.length : ℤ) - 4), ptR ps ((ps.length : ℤ) - 3),
            Cmd.beginPath :: Cmd.moveTo (getJs ps 0) (getJs ps 1) :: cornerLoop ps 0,
            e2, e1, e4, e3, ?_⟩
    simp only [sceneFuncArrow, if_neg h4, e2, e1, e4, e3]
    simp

/-- C6 witness: the arrowhead theorem applied to the concrete list
[0, 0, 10, 5], the spec's straight-case render input. -/
theorem c6_arrowhead_heading_and_chevron_witness :
    4 ≤ ([0, 0, 10, 5] : List ℝ).length
    ∧ (∃ (tx ty px py : ℝ) (pre : List Cmd),
      getJs ([0, 0, 10, 5] : List ℝ) ((([0, 0, 10, 5] : List ℝ).length : ℤ) - 2) = JsVal.num tx
      ∧ getJs ([0, 0, 10, 5] : List ℝ) ((([0, 0, 10, 5] : List ℝ).length : ℤ) - 1) = JsVal.num ty
      ∧ getJs ([0, 0, 10, 5] : List ℝ) ((([0, 0, 10, 5] : List ℝ).length : ℤ) - 4) = JsVal.num px
      ∧ getJs ([0, 0, 10, 5] : List ℝ) ((([0, 0, 10, 5] : List ℝ).length : ℤ) - 3) = JsVal.num py
      ∧ sceneFuncArrow ([0, 0, 10, 5] : List ℝ) = pre ++
        [Cmd.lineTo (JsVal.num tx) (JsVal.num ty),
         Cmd.lineTo (JsVal.num (tx - 10 * Real.cos (atan2R (ty - py) (tx - px) - Real.pi / 6)))
                    (JsVal.num (ty - 10 * Real.sin (atan2R (ty - py) (tx - px) - Real.pi / 6))),
         Cmd.moveTo (JsVal.num tx) (JsVal.num ty),
         Cmd.lineTo (JsVal.num (tx - 10 * Real.cos (atan2R (ty - py) (tx - px) + Real.pi / 6)))
                    (JsVal.num (ty - 10 * Real.sin (atan2R (ty - py) (tx - px) + Real.pi / 6))),
         Cmd.strokeShape]) :=
  ⟨by decide, c6_arrowhead_heading_and_chevron ([0, 0, 10, 5] : List ℝ) (by decide)⟩

/-- C7 counterexample: with coincident from and target (0,0), the planned
sequence is the single point [0, 0] (two values), not two identical points
(four values), and the render emits a chevron stroke whose coordinates are
NaN — NaN does propagate into the chevron. -/
theorem c7_counterexample_nan_chevron :
    drawPoints 0 0 (calculateSteps (some ⟨0, 0⟩)) = [0, 0]
    ∧ ([0, 0] : List ℝ) ≠ [0, 0, 0, 0]
    ∧ Cmd.lineTo JsVal.nan JsVal.nan ∈ sceneFuncArrow [0, 0] := by
  refine ⟨rfl, by simp, ?_⟩
  rw [sceneFuncArrow_pair]
  simp

/-- C7 (amended): when from and target coincide at any point v, the planned
sequence is the single duplicated point [v.x, v.y]; the render emits a
zero-length path at that point and does not throw, but the arrowhead angle
is NaN (atan2 of out-of-range reads), so both chevron strokes carry NaN
coordinates rather than a guarded non-NaN angle. -/
theorem c7_coincident_target_single_point_nan (v : Visible) :
    drawPoints v.x v.y (calculateSteps (some v)) = [v.x, v.y]
    ∧ sceneFuncArrow [v.x, v.y] =
      [Cmd.beginPath, Cmd.moveTo (JsVal.num v.x) (JsVal.num v.y),
       Cmd.lineTo (JsVal.num v.x) (JsVal.num v.y),
       Cmd.lineTo JsVal.nan JsVal.nan,
       Cmd.moveTo (JsVal.num v.x) (JsVal.num v.y),
       Cmd.lineTo JsVal.nan JsVal.nan, Cmd.strokeShape] :=
  ⟨rfl, sceneFuncArrow_pair v.x v.y⟩

/-- C8: for any event run ending in a pointer leave, the stroke width equals
the configured normal value; pointer enter sets exactly the configured
hovered value; and neither handler changes any attribute other than the
stroke width. -/
theorem c8_hover_round_trip {α : Type} (hw nw : ℝ) (s : ShapeAttrs α) (evs : List HoverEvent)
    (h : evs.getLast? = some HoverEvent.leave) :
    (applyHover hw nw s evs).strokeWidth = nw
    ∧ (applyHover hw nw s evs).rest = s.rest
    ∧ ∀ s2 : ShapeAttrs α,
        (onMouseEnter hw s2).strokeWidth = hw
        ∧ (onMouseEnter hw s2).rest = s2.rest
        ∧ (onMouseLeave nw s2).strokeWidth = nw
        ∧ (onMouseLeave nw s2).rest = s2.rest :=
  ⟨applyHover_strokeWidth hw nw evs s h, applyHover_rest hw nw evs s,
   fun _ => ⟨rfl, rfl, rfl, rfl⟩⟩

/-- C8 witness: the hover round-trip theorem applied to the concrete run
enter-then-leave from stroke width 5, with hovered width 3 and normal
width 1. -/
theorem c8_hover_round_trip_witness :
    ([HoverEvent.enter, HoverEvent.leave].getLast? = some HoverEvent.leave)
    ∧ ((applyHover 3 1 (⟨5, ()⟩ : ShapeAttrs Unit) [HoverEvent.enter, HoverEvent.leave]).strokeWidth = 1
      ∧ (applyHover 3 1 (⟨5, ()⟩ : ShapeAttrs Unit) [HoverEvent.enter, HoverEvent.leave]).rest =
          (⟨5, ()⟩ : ShapeAttrs Unit).rest
      ∧ ∀ s2 : ShapeAttrs Unit,
          (onMouseEnter 3 s2).strokeWidth = 3
          ∧ (onMouseEnter 3 s2).rest = s2.rest
          ∧ (onMouseLeave 1 s2).strokeWidth = 1
          ∧ (onMouseLeave 1 s2).rest = s2.rest) :=
  ⟨by decide, c8_hover_round_trip 3 1 (⟨5, ()⟩ : ShapeAttrs Unit)
      [HoverEvent.enter, HoverEvent.leave] (by decide)⟩

/-- C9: rendering is pure: a `draw` call leaves every instance field
unchanged (points, from, target, x, y, width, height), and a second call on
the same state produces an identical point sequence and an identical
drawing-command sequence, in both variants. -/
theorem c9_render_idempotent_no_mutation (a : ArrowState) (k1 k2 : ℕ) :
    (draw a k1).state = a
    ∧ (drawComposite a k1).state = a
    ∧ (draw a k1).out.cmds = (draw ((draw a k1).state) k2).out.cmds
    ∧ (draw a k1).out.pts = (draw ((draw a k1).state) k2).out.pts
    ∧ (drawComposite a k1).out.cmds = (drawComposite ((drawComposite a k1).state) k2).out.cmds
    ∧ (drawComposite a k1).out.pts = (drawComposite ((drawComposite a k1).state) k2).out.pts :=
  ⟨rfl, rfl, rfl, rfl, rfl, rfl⟩

/-- C10: each `draw()` call returns the pre-increment `Layout.key` as the
node key and leaves the counter incremented by exactly one, with every
instance field unchanged; threading the counter through successive calls
across instances yields the keys k, k+1, ..., which are pairwise distinct. -/
theorem c10_layout_key_allocation (a b : ArrowState) (k : ℕ) (arrows : List ArrowState) :
    (draw a k).layoutKey = k + 1
    ∧ (draw a k).out.key = k
    ∧ (draw a k).state = a
    ∧ (drawComposite a k).layoutKey = k + 1
    ∧ (drawComposite a k).out.key = k
    ∧ (drawComposite a k).state = a
    ∧ (draw b ((draw a k).layoutKey)).out.key ≠ (draw a k).out.key
    ∧ (drawSeq arrows k).1 = List.range' k arrows.length
    ∧ (drawSeq arrows k).1.Nodup := by
  refine ⟨rfl, rfl, rfl, rfl, rfl, rfl, ?_, drawSeq_keys arrows k, ?_⟩
  · simp [draw]
  · rw [drawSeq_keys arrows k]
    exact List.nodup_range' k arrows.length
